import Mathlib

/-!
# Verification of the contest-maker-150 problem-selection engine

Shallow embedding of the Go backend's contest-problem-selection engine
(`backend/internal/service/problem_service.go`,
`backend/internal/service/contest_service.go`,
`backend/internal/domain/problem.go`, `backend/internal/domain/contest.go`)
and proofs of the specification claims about it.

Modelling conventions:
* Go `int` values reachable by the claims are non-negative and far from
  overflow, so they are embedded as `Nat`; all Go integer divisions in the
  embedded code occur on non-negative operands, where Go's truncated
  division agrees with `Nat` division.
* The random source (`rand.Rand` behind a mutex) is embedded as an explicit
  stream of draws: a list of naturals per difficulty tier, one entry per
  Fisher-Yates step, reduced modulo the live range exactly as `rng.Intn`
  bounds its result.
* Collaborator calls (repository fetches, inserts, updates) are embedded as
  explicit parameters carrying each call's outcome; `error` values become
  `Except`/`Option` with an abstract `Nat` error code for repository
  failures, and the domain sentinel errors become dedicated constructors.
* `sort.Slice` is an unstable comparison sort; it is embedded as
  `List.mergeSort` with the reflexive closure of the Go `less` function,
  which realizes the same contract (a permutation of the input that is
  sorted by non-decreasing difficulty weight).
* Concurrency: the three pool fetches run in goroutines and are joined on a
  channel before any selection happens; the join is order-insensitive (each
  tier's result is keyed by its difficulty), so the post-join state is a
  pure function of the three fetch outcomes and is embedded as such.
-/

namespace ContestMaker

/-- Embedding of `domain.Difficulty` (`backend/internal/domain/problem.go`).  The Go type
is a string; the catalog and the engine only ever use the three constants
`Easy`, `Medium`, `Hard`, embedded as an enumeration. -/
inductive Difficulty where
  | easy
  | medium
  | hard
deriving DecidableEq, Fintype

/-- Embedding of `Difficulty.Weight` (`backend/internal/domain/problem.go`): numeric
weight used for sorting by difficulty (`Easy=1, Medium=2, Hard=3`; the Go
default branch for unknown strings is unreachable for the enumerated type). -/
def Difficulty.weight : Difficulty → Nat
  | .easy => 1
  | .medium => 2
  | .hard => 3

/-- Embedding of `domain.Problem` restricted to the fields the selection engine reads:
the unique identifier and the difficulty tier.  The remaining catalog
fields (title, slug, topics, URLs, order index) are never inspected by the
embedded code. -/
structure Problem where
  id : Nat
  difficulty : Difficulty
deriving DecidableEq

/-- The domain sentinel errors reachable from contest creation
(`backend/internal/domain/errors.go`), plus an abstract constructor for
repository/infrastructure errors (Go `error` values other than the
sentinels, distinguished here by an opaque code). -/
inductive AppError where
  | notEnoughProblems
  | activeContestExists
  | repo (code : Nat)
deriving DecidableEq

/-- The raw distribution computed by the `switch` statement of
`ProblemService.calculateDistribution`
(`backend/internal/service/problem_service.go`), before the
floor-enforcement pass.  A tier the Go code leaves unset in the map reads
back as `0`. -/
def rawDistribution (count : Nat) : Difficulty → Nat := fun d =>
  if count ≤ 3 then
    -- For very small contests, mostly easy with maybe one medium
    match d with
    | .easy => if 2 ≤ count then count - 1 else count
    | .medium => if 2 ≤ count then 1 else 0
    | .hard => 0
  else if count ≤ 5 then
    -- 2 Easy, 2 Medium, 1 Hard (or proportional)
    match d with
    | .easy => 2
    | .medium => 2
    | .hard => count - 4
  else if count ≤ 10 then
    -- 30% Easy, 40% Medium, 30% Hard
    match d with
    | .easy => count * 3 / 10
    | .medium => count * 4 / 10
    | .hard => count - count * 3 / 10 - count * 4 / 10
  else
    -- For larger contests: 25% Easy, 50% Medium, 25% Hard
    match d with
    | .easy => count / 4
    | .medium => count / 2
    | .hard => count - count / 4 - count / 2

/-- Embedding of `ProblemService.calculateDistribution`
(`backend/internal/service/problem_service.go`): the raw `switch`
distribution followed by the floor-enforcement pass (`if count >= 3`, every
tier whose entry is `0` is set to `1`, each tier independently). -/
def calculateDistribution (count : Nat) : Difficulty → Nat := fun d =>
  if 3 ≤ count ∧ rawDistribution count d = 0 then 1 else rawDistribution count d

/-- The distribution policy as the specification states it (§4.1):
the policy table (`≤3`, `4–5`, `6–10`, `>10` rows, with
`floor(count*0.3) = count*3/10` and `floor(count*0.4) = count*4/10` on
naturals) followed by the floor-enforcement pass that bumps any tier
computed as exactly `0` to `1` when `count >= 3`, independently per tier.
Written from the spec's words, to be compared with `calculateDistribution`
from the source. -/
def planDistributionSpec (count : Nat) : Difficulty → Nat :=
  let raw : Difficulty → Nat := fun d =>
    if count ≤ 3 then
      -- 1 → all Easy; ≥2 → easy = count-1, medium = 1, hard = 0
      if count = 1 then
        match d with
        | .easy => count
        | .medium => 0
        | .hard => 0
      else
        match d with
        | .easy => count - 1
        | .medium => 1
        | .hard => 0
    else if count ≤ 5 then
      -- easy = 2, medium = 2, hard = count - 4
      match d with
      | .easy => 2
      | .medium => 2
      | .hard => count - 4
    else if count ≤ 10 then
      -- easy = floor(count*0.3), medium = floor(count*0.4), hard absorbs
      match d with
      | .easy => count * 3 / 10
      | .medium => count * 4 / 10
      | .hard => count - count * 3 / 10 - count * 4 / 10
    else
      -- easy = floor(count/4), medium = floor(count/2), hard absorbs
      match d with
      | .easy => count / 4
      | .medium => count / 2
      | .hard => count - count / 4 - count / 2
  fun d => if 3 ≤ count ∧ raw d = 0 then 1 else raw d

/-- Total of a distribution over the three tiers. -/
def distTotal (dist : Difficulty → Nat) : Nat :=
  dist .easy + dist .medium + dist .hard

/-- The simultaneous swap `l[i], l[j] = l[j], l[i]` of the Fisher-Yates
loop in `ProblemService.randomSelect`; out-of-range indices (unreachable in
the embedded call sites) leave the list unchanged. -/
def listSwap (l : List Problem) (i j : Nat) : List Problem :=
  if h : i < l.length ∧ j < l.length then
    (l.set i (l.get ⟨j, h.2⟩)).set j (l.get ⟨i, h.1⟩)
  else l

/-- The Fisher-Yates loop of `ProblemService.randomSelect`
(`for i := 0; i < n; i++ { j := i + rng.Intn(len-i); swap i j }`): `steps`
iterations starting at position `i`, with the stream `rand` supplying the
random draw of each step, reduced modulo the live range `len - i` exactly
as `rng.Intn(len-i)` bounds its result. -/
def fisherYates (rand : List Nat) : List Problem → Nat → Nat → List Problem
  | l, _, 0 => l
  | l, i, steps + 1 =>
      fisherYates rand (listSwap l i (i + rand.getD i 0 % (l.length - i))) (i + 1) steps

/-- Embedding of `ProblemService.randomSelect`
(`backend/internal/service/problem_service.go`): if `n >= len(problems)`
return the slice unchanged, otherwise partially shuffle a copy with
Fisher-Yates and return its first `n` elements. -/
def randomSelect (rand : List Nat) (problems : List Problem) (n : Nat) : List Problem :=
  if problems.length ≤ n then problems
  else (fisherYates rand problems 0 n).take n

/-- The post-join pool map of `SelectProblemsForContest`: each tier's fetch
result is stored under its difficulty key when the fetch succeeded; on a
fetch error the Go code logs and `continue`s, leaving the key unset, and a
missing map key reads back as the empty (nil) slice. -/
def poolsOf (fetch : Difficulty → Except Nat (List Problem)) :
    Difficulty → List Problem := fun d =>
  match fetch d with
  | .ok ps => ps
  | .error _ => []

/-- One iteration of the selection loop of `SelectProblemsForContest`: the
accumulator carries `(selectedProblems, shortfall)`; `needed` is the tier's
distribution entry plus the carried shortfall; an under-supplied tier
contributes its whole pool and carries the deficit forward, a sufficiently
supplied tier contributes `needed` randomly selected problems and resets
the shortfall to `0`. -/
def selectStep (rand : Difficulty → List Nat) (pools : Difficulty → List Problem)
    (dist : Difficulty → Nat) (acc : List Problem × Nat) (d : Difficulty) :
    List Problem × Nat :=
  let needed := dist d + acc.2
  let available := pools d
  if available.length < needed then
    (acc.1 ++ available, needed - available.length)
  else
    (acc.1 ++ randomSelect (rand d) available needed, 0)

/-- The selection loop of `SelectProblemsForContest`: tiers processed in
the order Easy, Medium, Hard with `selectedProblems = nil` and
`shortfall = 0` initially. -/
def selectLoop (rand : Difficulty → List Nat) (pools : Difficulty → List Problem)
    (dist : Difficulty → Nat) : List Problem × Nat :=
  [Difficulty.easy, Difficulty.medium, Difficulty.hard].foldl
    (selectStep rand pools dist) ([], 0)

/-- The comparison under the final `sort.Slice` of
`SelectProblemsForContest` (`less i j = weight i < weight j`), taken as its
reflexive closure for the merge sort that embeds the unstable Go sort. -/
def leWeight (a b : Problem) : Bool :=
  decide (a.difficulty.weight ≤ b.difficulty.weight)

/-- Embedding of `ProblemService.SelectProblemsForContest`
(`backend/internal/service/problem_service.go`) from the fan-in join
onward: build the pool map from the three fetch outcomes (a failed tier is
logged and left as an empty pool), compute the distribution, run the
shortfall-carrying selection loop, fail with `ErrNotEnoughProblems` only
when the result is smaller than requested *and* empty, and finally sort by
ascending difficulty weight. -/
def SelectProblemsForContest (rand : Difficulty → List Nat)
    (fetch : Difficulty → Except Nat (List Problem)) (count : Nat) :
    Except AppError (List Problem) :=
  let pools := poolsOf fetch
  let dist := calculateDistribution count
  let selected := (selectLoop rand pools dist).1
  if selected.length < count ∧ selected.length = 0 then
    .error .notEnoughProblems
  else
    .ok (selected.mergeSort leWeight)

/-- Embedding of `domain.ContestStatus` (`backend/internal/domain/contest.go`). -/
inductive ContestStatus where
  | active
  | completed
  | abandoned
deriving DecidableEq

/-- Embedding of `domain.Contest` restricted to the fields contest creation reads or
writes.  Timestamps are naturals (nanoseconds since epoch, matching
`time.Time`'s resolution). -/
structure Contest where
  id : Nat
  userId : Nat
  durationMinutes : Nat
  startedAt : Nat
  endedAt : Option Nat
  status : ContestStatus
deriving DecidableEq

/-- Nanoseconds per minute (`time.Minute`). -/
def minuteNs : Nat := 60 * 1000000000

/-- Embedding of `Contest.IsExpired` (`backend/internal/domain/contest.go`): a contest
is expired iff it is active and the current time is strictly after
`StartedAt + DurationMinutes` minutes. -/
def Contest.IsExpired (c : Contest) (now : Nat) : Bool :=
  if c.status ≠ ContestStatus.active then false
  else decide (c.startedAt + c.durationMinutes * minuteNs < now)

/-- Embedding of `domain.CreateContestRequest` (validated at the HTTP layer with
`problem_count` in `1..20`). -/
structure CreateContestRequest where
  problemCount : Nat
  durationMinutes : Nat

/-- Embedding of `domain.ContestProblem` restricted to the fields contest creation
writes. -/
structure ContestProblem where
  contestId : Nat
  problemId : Nat
  order : Nat
  isCompleted : Bool
  problem : Problem
deriving DecidableEq

/-- The contest-problem construction loop of `ContestService.CreateContest`
(`for i, p := range problems { contestProblems[i] = ContestProblem{...,
Order: i + 1, ...} }`), with `i` the running 0-based index. -/
def makeContestProblems (cid : Nat) : Nat → List Problem → List ContestProblem
  | _, [] => []
  | i, p :: ps => ⟨cid, p.id, i + 1, false, p⟩ :: makeContestProblems cid (i + 1) ps

/-- Outcome of a `CreateContest` run: the returned value or error, the
contests passed to `contestRepo.Update` (auto-completed expired contests),
and the contest ids passed to `contestRepo.Delete` (rollback). -/
structure CreateOutcome where
  result : Except AppError (Contest × List ContestProblem)
  updates : List Contest
  deleted : List Nat

/-- The tail of `ContestService.CreateContest` after the active-contest
check: select problems, create the contest row (the repository assigns
`newId`), build the ordered contest problems, persist them (rolling the
contest back on failure), and return the contest with its problems.
`createErr`/`addErr` carry the outcome of the two repository writes. -/
def proceedCreate (now userId : Nat) (req : CreateContestRequest)
    (rand : Difficulty → List Nat) (fetch : Difficulty → Except Nat (List Problem))
    (newId : Nat) (createErr addErr : Option Nat) (updates : List Contest) :
    CreateOutcome :=
  match SelectProblemsForContest rand fetch req.problemCount with
  | .error e => ⟨.error e, updates, []⟩
  | .ok problems =>
    match createErr with
    | some e => ⟨.error (.repo e), updates, []⟩
    | none =>
      let contest : Contest :=
        ⟨newId, userId, req.durationMinutes, now, none, .active⟩
      let cps := makeContestProblems newId 0 problems
      match addErr with
      | some e => ⟨.error (.repo e), updates, [newId]⟩
      | none => ⟨.ok (contest, cps), updates, []⟩

/-- Embedding of `ContestService.CreateContest`
(`backend/internal/service/contest_service.go`): propagate a failure of
`FindActiveByUserID`; if an active contest exists and is expired,
auto-complete it (status `completed`, `EndedAt = now`) via
`contestRepo.Update` (whose own error is only logged) and proceed; if it
exists and is not expired, fail with `ErrActiveContestExists`; otherwise
proceed directly. -/
def CreateContest (now userId : Nat) (req : CreateContestRequest)
    (rand : Difficulty → List Nat) (fetch : Difficulty → Except Nat (List Problem))
    (findActive : Except Nat (Option Contest)) (newId : Nat)
    (createErr addErr : Option Nat) : CreateOutcome :=
  match findActive with
  | .error e => ⟨.error (.repo e), [], []⟩
  | .ok none => proceedCreate now userId req rand fetch newId createErr addErr []
  | .ok (some c) =>
    if c.IsExpired now then
      proceedCreate now userId req rand fetch newId createErr addErr
        [{ c with status := .completed, endedAt := some now }]
    else
      ⟨.error .activeContestExists, [], []⟩

/-- Concrete pool map used by witness theorems: pool sizes
`{Easy: 1, Medium: 10, Hard: 10}`, each pool homogeneous in difficulty. -/
def examplePools : Difficulty → List Problem
  | .easy => [⟨0, .easy⟩]
  | .medium => (List.range' 10 10).map (fun n => ⟨n, .medium⟩)
  | .hard => (List.range' 20 10).map (fun n => ⟨n, .hard⟩)

/-- Concrete fetch outcome used by witness theorems: all three tiers
succeed with three problems each, pairwise-distinct identifiers. -/
def richFetch : Difficulty → Except Nat (List Problem)
  | .easy => .ok [⟨0, .easy⟩, ⟨1, .easy⟩, ⟨2, .easy⟩]
  | .medium => .ok [⟨10, .medium⟩, ⟨11, .medium⟩, ⟨12, .medium⟩]
  | .hard => .ok [⟨20, .hard⟩, ⟨21, .hard⟩, ⟨22, .hard⟩]

/-- Concrete fetch outcome in which the Easy tier's fetch fails with an
I/O error (code `7`) while the other tiers succeed. -/
def failingFetch : Difficulty → Except Nat (List Problem)
  | .easy => .error 7
  | .medium => .ok [⟨10, .medium⟩, ⟨11, .medium⟩]
  | .hard => .ok []

/-- Degenerate random stream (every `Intn` draw is `0`, so every
Fisher-Yates swap is the identity). -/
def noRand : Difficulty → List Nat := fun _ => []

/-- Concrete active contest used by witness theorems: 30-minute contest
started at time `1000`. -/
def exampleContest : Contest := ⟨1, 42, 30, 1000, none, .active⟩

/-- Concrete creation request used by witness theorems. -/
def exampleReq : CreateContestRequest := ⟨3, 30⟩

/-- Claim C4 (code bug). A failed tier fetch is *not* propagated: with the
Easy tier's fetch failing (error code `7`), `SelectProblemsForContest`
treats the Easy pool as empty, proceeds, and returns a successful result
drawn from the remaining tiers — the spec and the repository's own
documentation (`docs/concurrency-patterns.md`) require the whole request to
fail on any tier's fetch error. -/
theorem fetchError_treated_as_empty_pool :
    failingFetch .easy = .error 7 ∧
    poolsOf failingFetch .easy = [] ∧
    ∃ l, SelectProblemsForContest noRand failingFetch 2 = .ok l ∧
      l.Perm [⟨10, .medium⟩, ⟨11, .medium⟩] := by
  refine ⟨rfl, rfl,
    ((selectLoop noRand (poolsOf failingFetch) (calculateDistribution 2)).1.mergeSort
      leWeight), rfl, ?_⟩
  have hsel : (selectLoop noRand (poolsOf failingFetch) (calculateDistribution 2)).1
      = [⟨10, .medium⟩, ⟨11, .medium⟩] := by decide
  exact (List.mergeSort_perm _ leWeight).trans (by rw [hsel])

/-- Every error of `SelectProblemsForContest` is `ErrNotEnoughProblems`. -/
theorem selectProblems_error_ne_active (rand : Difficulty → List Nat)
    (fetch : Difficulty → Except Nat (List Problem)) (count : Nat) (e : AppError)
    (h : SelectProblemsForContest rand fetch count = .error e) :
    e = .notEnoughProblems := by
  set sel := (selectLoop rand (poolsOf fetch) (calculateDistribution count)).1 with hselDef
  have hdef : SelectProblemsForContest rand fetch count =
      if sel.length < count ∧ sel.length = 0 then .error .notEnoughProblems
      else .ok (sel.mergeSort leWeight) := rfl
  rw [hdef] at h
  split_ifs at h
  exact (Except.error.inj h).symm

/-- Helper: `proceedCreate` never fails with `ErrActiveContestExists`. -/
theorem proceedCreate_result_ne_active (now userId : Nat) (req : CreateContestRequest)
    (rand : Difficulty → List Nat) (fetch : Difficulty → Except Nat (List Problem))
    (newId : Nat) (createErr addErr : Option Nat) (updates : List Contest) :
    (proceedCreate now userId req rand fetch newId createErr addErr updates).result
      ≠ .error .activeContestExists := by
  intro hco
  unfold proceedCreate at hco
  cases hsel : SelectProblemsForContest rand fetch req.problemCount with
  | error e =>
    rw [hsel] at hco
    have he := selectProblems_error_ne_active rand fetch req.problemCount e hsel
    subst he
    simp at hco
  | ok problems =>
    rw [hsel] at hco
    cases createErr <;> cases addErr <;> simp at hco

/-- The `result` of `proceedCreate` does not depend on the `updates`
accumulator. -/
theorem proceedCreate_result_congr (now userId : Nat) (req : CreateContestRequest)
    (rand : Difficulty → List Nat) (fetch : Difficulty → Except Nat (List Problem))
    (newId : Nat) (createErr addErr : Option Nat) (u1 u2 : List Contest) :
    (proceedCreate now userId req rand fetch newId createErr addErr u1).result
      = (proceedCreate now userId req rand fetch newId createErr addErr u2).result := by
  unfold proceedCreate
  cases SelectProblemsForContest rand fetch req.problemCount <;>
    cases createErr <;> cases addErr <;> rfl

/-- The `updates` accumulator passes through `proceedCreate` unchanged. -/
theorem proceedCreate_updates (now userId : Nat) (req : CreateContestRequest)
    (rand : Difficulty → List Nat) (fetch : Difficulty → Except Nat (List Problem))
    (newId : Nat) (createErr addErr : Option Nat) (updates : List Contest) :
    (proceedCreate now userId req rand fetch newId createErr addErr updates).updates
      = updates := by
  unfold proceedCreate
  cases SelectProblemsForContest rand fetch req.problemCount <;>
    cases createErr <;> cases addErr <;> rfl

/-- Claim C9. With the active-contest lookup succeeding, `CreateContest`
fails with `ErrActiveContestExists` exactly when the user has an active
contest that is not expired; when the active contest *is* expired,
`CreateContest` marks it completed (status `completed`, `EndedAt = now`)
via the repository update and proceeds exactly as if no active contest
existed. -/
theorem createContest_active_check (now userId : Nat) (req : CreateContestRequest)
    (rand : Difficulty → List Nat) (fetch : Difficulty → Except Nat (List Problem))
    (active : Option Contest) (newId : Nat) (createErr addErr : Option Nat) :
    ((CreateContest now userId req rand fetch (.ok active) newId createErr addErr).result
        = .error .activeContestExists ↔
      ∃ c, active = some c ∧ c.IsExpired now = false) ∧
    (∀ c, active = some c → c.IsExpired now = true →
      (CreateContest now userId req rand fetch (.ok active) newId createErr addErr).updates
          = [{ c with status := .completed, endedAt := some now }] ∧
      (CreateContest now userId req rand fetch (.ok active) newId createErr addErr).result
          = (CreateContest now userId req rand fetch (.ok none) newId
              createErr addErr).result) := by
  cases active with
  | none =>
    refine ⟨⟨fun hco => ?_, fun hex => ?_⟩, fun c hc _ => ?_⟩
    · exact absurd hco
        (proceedCreate_result_ne_active now userId req rand fetch newId createErr addErr [])
    · obtain ⟨c, hc, _⟩ := hex
      exact absurd hc (by simp)
    · exact absurd hc (by simp)
  | some c =>
    by_cases hexp : c.IsExpired now = true
    · have hC : CreateContest now userId req rand fetch (.ok (some c)) newId createErr addErr
          = proceedCreate now userId req rand fetch newId createErr addErr
              [{ c with status := .completed, endedAt := some now }] := by
        have h0 : CreateContest now userId req rand fetch (.ok (some c)) newId createErr addErr
            = if c.IsExpired now = true then
                proceedCreate now userId req rand fetch newId createErr addErr
                  [{ c with status := .completed, endedAt := some now }]
              else ⟨.error .activeContestExists, [], []⟩ := rfl
        rw [h0, if_pos hexp]
      refine ⟨⟨fun hco => ?_, fun hex => ?_⟩, fun c2 hc2 hexp2 => ?_⟩
      · rw [hC] at hco
        exact absurd hco (proceedCreate_result_ne_active now userId req rand fetch newId
          createErr addErr _)
      · obtain ⟨c2, hc2, hne⟩ := hex
        have : c = c2 := Option.some.inj hc2
        subst this
        rw [hexp] at hne
        exact absurd hne (by simp)
      · have : c = c2 := Option.some.inj hc2
        subst this
        refine ⟨?_, ?_⟩
        · rw [hC]
          exact proceedCreate_updates now userId req rand fetch newId createErr addErr _
        · rw [hC]
          have hnone : CreateContest now userId req rand fetch (.ok none) newId
              createErr addErr
              = proceedCreate now userId req rand fetch newId createErr addErr [] := rfl
          rw [hnone]
          exact proceedCreate_result_congr now userId req rand fetch newId createErr addErr _ _
    · have hC : CreateContest now userId req rand fetch (.ok (some c)) newId createErr addErr
          = ⟨.error .activeContestExists, [], []⟩ := by
        have h0 : CreateContest now userId req rand fetch (.ok (some c)) newId createErr addErr
            = if c.IsExpired now = true then
                proceedCreate now userId req rand fetch newId createErr addErr
                  [{ c with status := .completed, endedAt := some now }]
              else ⟨.error .activeContestExists, [], []⟩ := rfl
        rw [h0, if_neg hexp]
      refine ⟨⟨fun _ => ?_, fun _ => ?_⟩, fun c2 hc2 hexp2 => ?_⟩
      · exact ⟨c, rfl, by simpa using hexp⟩
      · rw [hC]
      · have : c = c2 := Option.some.inj hc2
        subst this
        exact absurd hexp2 hexp

/-- Witness for `createContest_active_check`: a 30-minute contest started
at time `1000`, checked one nanosecond past its end, is auto-completed and
creation proceeds as if no active contest existed. -/
theorem createContest_active_check_witness :
    (CreateContest (1000 + 30 * minuteNs + 1) 42 exampleReq noRand richFetch
        (.ok (some exampleContest)) 5 none none).updates
      = [{ exampleContest with status := .completed, endedAt := some (1000 + 30 * minuteNs + 1) }] ∧
    (CreateContest (1000 + 30 * minuteNs + 1) 42 exampleReq noRand richFetch
        (.ok (some exampleContest)) 5 none none).result
      = (CreateContest (1000 + 30 * minuteNs + 1) 42 exampleReq noRand richFetch
        (.ok none) 5 none none).result :=
  (createContest_active_check (1000 + 30 * minuteNs + 1) 42 exampleReq noRand richFetch
    (some exampleContest) 5 none none).2 exampleContest rfl (by decide)

/-- The persisted contest problems wrap the selected problems in order. -/
theorem makeContestProblems_map_problem (cid : Nat) :
    ∀ (i : Nat) (ps : List Problem),
      (makeContestProblems cid i ps).map (fun cp => cp.problem) = ps := by
  intro i ps
  induction ps generalizing i with
  | nil => rfl
  | cons p ps ih => simp [makeContestProblems, ih]

/-- The persisted contest problems carry positions `i+1, i+2, ...`. -/
theorem makeContestProblems_map_order (cid : Nat) :
    ∀ (i : Nat) (ps : List Problem),
      (makeContestProblems cid i ps).map (fun cp => cp.order)
        = List.range' (i + 1) ps.length := by
  intro i ps
  induction ps generalizing i with
  | nil => simp [makeContestProblems]
  | cons p ps ih => simp [makeContestProblems, ih, List.range']

/-- The persisted contest problems reference the wrapped problems' ids. -/
theorem makeContestProblems_map_problemId (cid : Nat) :
    ∀ (i : Nat) (ps : List Problem),
      (makeContestProblems cid i ps).map (fun cp => cp.problemId)
        = ps.map Problem.id := by
  intro i ps
  induction ps generalizing i with
  | nil => rfl
  | cons p ps ih => simp [makeContestProblems, ih, Problem.id]

/-- A successful `proceedCreate` returns the selected problems wrapped by
the construction loop. -/
theorem proceedCreate_ok_shape (now userId : Nat) (req : CreateContestRequest)
    (rand : Difficulty → List Nat) (fetch : Difficulty → Except Nat (List Problem))
    (newId : Nat) (createErr addErr : Option Nat) (updates : List Contest)
    (c : Contest) (cps : List ContestProblem)
    (hok : (proceedCreate now userId req rand fetch newId createErr addErr updates).result
      = .ok (c, cps)) :
    ∃ problems, SelectProblemsForContest rand fetch req.problemCount = .ok problems ∧
      cps = makeContestProblems newId 0 problems := by
  unfold proceedCreate at hok
  cases hsel : SelectProblemsForContest rand fetch req.problemCount with
  | error e =>
    rw [hsel] at hok
    simp at hok
  | ok problems =>
    rw [hsel] at hok
    cases createErr with
    | some e => simp at hok
    | none =>
      cases addErr with
      | some e => simp at hok
      | none =>
        simp only [Except.ok.injEq, Prod.mk.injEq] at hok
        exact ⟨problems, rfl, hok.2.symm⟩

/-- A successful `CreateContest` returns the selected problems wrapped by
the construction loop. -/
theorem createContest_ok_shape (now userId : Nat) (req : CreateContestRequest)
    (rand : Difficulty → List Nat) (fetch : Difficulty → Except Nat (List Problem))
    (findActive : Except Nat (Option Contest)) (newId : Nat)
    (createErr addErr : Option Nat) (c : Contest) (cps : List ContestProblem)
    (hok : (CreateContest now userId req rand fetch findActive newId createErr
      addErr).result = .ok (c, cps)) :
    ∃ problems, SelectProblemsForContest rand fetch req.problemCount = .ok problems ∧
      cps = makeContestProblems newId 0 problems := by
  unfold CreateContest at hok
  cases findActive with
  | error e => simp at hok
  | ok active =>
    cases active with
    | none =>
      exact proceedCreate_ok_shape now userId req rand fetch newId createErr addErr _
        c cps hok
    | some c0 =>
      have h0 : (match (Except.ok (some c0) : Except Nat (Option Contest)) with
          | .error e => (⟨.error (.repo e), [], []⟩ : CreateOutcome)
          | .ok none => proceedCreate now userId req rand fetch newId createErr addErr []
          | .ok (some c1) =>
            if c1.IsExpired now = true then
              proceedCreate now userId req rand fetch newId createErr addErr
                [{ c1 with status := .completed, endedAt := some now }]
            else ⟨.error .activeContestExists, [], []⟩)
          = if c0.IsExpired now = true then
              proceedCreate now userId req rand fetch newId createErr addErr
                [{ c0 with status := .completed, endedAt := some now }]
            else ⟨.error .activeContestExists, [], []⟩ := rfl
      rw [h0] at hok
      by_cases hexp : c0.IsExpired now = true
      · rw [if_pos hexp] at hok
        exact proceedCreate_ok_shape now userId req rand fetch newId createErr addErr _
          c cps hok
      · rw [if_neg hexp] at hok
        simp at hok

/-- Claim C10. In every successful `CreateContest` the persisted contest
problems carry positions exactly `1..n`, 1-based and sequential in the
selected list's order: the `i`-th entry wraps the `i`-th selected problem
with `Order = i` (counting from 1) and references that problem's
identifier. -/
theorem createContest_problem_order (now userId : Nat) (req : CreateContestRequest)
    (rand : Difficulty → List Nat) (fetch : Difficulty → Except Nat (List Problem))
    (findActive : Except Nat (Option Contest)) (newId : Nat)
    (createErr addErr : Option Nat) (c : Contest) (cps : List ContestProblem)
    (hok : (CreateContest now userId req rand fetch findActive newId createErr
      addErr).result = .ok (c, cps)) :
    cps.map (fun cp => cp.order) = List.range' 1 cps.length ∧
    SelectProblemsForContest rand fetch req.problemCount
      = .ok (cps.map (fun cp => cp.problem)) ∧
    cps.map (fun cp => cp.problemId) = (cps.map (fun cp => cp.problem)).map Problem.id := by
  obtain ⟨problems, hsel, hcps⟩ := createContest_ok_shape now userId req rand fetch
    findActive newId createErr addErr c cps hok
  subst hcps
  have hlen : (makeContestProblems newId 0 problems).length = problems.length := by
    have := congrArg List.length (makeContestProblems_map_problem newId 0 problems)
    simpa using this
  refine ⟨?_, ?_, ?_⟩
  · rw [makeContestProblems_map_order, hlen]
  · rw [makeContestProblems_map_problem]
    exact hsel
  · rw [makeContestProblems_map_problemId, makeContestProblems_map_problem]

/-- Witness for `createContest_problem_order`: a concrete successful
creation (no active contest, all repository writes succeed) on `richFetch`
with `count = 3`. -/
theorem createContest_problem_order_witness :
    (makeContestProblems 5 0 ((selectLoop noRand (poolsOf richFetch)
        (calculateDistribution 3)).1.mergeSort leWeight)).map (fun cp => cp.order)
      = List.range' 1 (makeContestProblems 5 0 ((selectLoop noRand (poolsOf richFetch)
        (calculateDistribution 3)).1.mergeSort leWeight)).length :=
  (createContest_problem_order 500 42 exampleReq noRand richFetch (.ok none) 5 none none
    ⟨5, 42, 30, 500, none, .active⟩
    (makeContestProblems 5 0 ((selectLoop noRand (poolsOf richFetch)
      (calculateDistribution 3)).1.mergeSort leWeight)) rfl).1

end ContestMaker

namespace ContestMaker

/-- A single Fisher-Yates swap permutes the list. -/
theorem listSwap_perm (l : List Problem) (i j : Nat) : (listSwap l i j).Perm l := by
  unfold listSwap
  split
  · rename_i h
    rcases h with ⟨hi, hj⟩
    rw [List.perm_iff_count]
    intro x
    have hj' : j < (l.set i (l.get ⟨j, hj⟩)).length := by simpa using hj
    rw [List.count_set _ _ _ _ hj', List.count_set _ _ _ _ hi]
    have hgetB : (l.set i (l.get ⟨j, hj⟩))[j] = l.get ⟨j, hj⟩ := by
      by_cases hij : i = j
      · subst hij
        exact List.getElem_set_self _
      · rw [List.getElem_set_ne hij]
        simp [List.get_eq_getElem]
    rw [hgetB]
    simp only [List.get_eq_getElem]
    have hmem : l[i] ∈ l := List.getElem_mem hi
    by_cases h1 : l[i] = x
    · have hcount : 0 < List.count x l := List.count_pos_iff.mpr (h1 ▸ hmem)
      by_cases h2 : l[j] = x <;> simp [h1, h2] <;> omega
    · by_cases h2 : l[j] = x <;> simp [h1, h2]
  · exact List.Perm.refl l

/-- The Fisher-Yates loop permutes the list. -/
theorem fisherYates_perm (rand : List Nat) :
    ∀ (steps : Nat) (l : List Problem) (i : Nat),
      (fisherYates rand l i steps).Perm l := by
  intro steps
  induction steps with
  | zero => intro l i; exact List.Perm.refl l
  | succ n ih =>
      intro l i
      exact (ih _ (i + 1)).trans (listSwap_perm l i _)

/-- Helper: `randomSelect` returns `min n (pool size)` problems. -/
theorem randomSelect_length (rand : List Nat) (l : List Problem) (n : Nat) :
    (randomSelect rand l n).length = min n l.length := by
  unfold randomSelect
  split
  · rename_i h
    omega
  · rename_i h
    rw [List.length_take, (fisherYates_perm rand n l 0).length_eq]

/-- Every problem returned by `randomSelect` comes from the input pool. -/
theorem randomSelect_subset (rand : List Nat) (l : List Problem) (n : Nat)
    (p : Problem) (hp : p ∈ randomSelect rand l n) : p ∈ l := by
  unfold randomSelect at hp
  split at hp
  · exact hp
  · exact ((fisherYates_perm rand n l 0).mem_iff).mp (List.mem_of_mem_take hp)

/-- Helper: `randomSelect` preserves freedom from duplicates under any projection
(in particular under the problem-identifier projection). -/
theorem randomSelect_map_nodup (rand : List Nat) (l : List Problem) (n : Nat)
    (f : Problem → Nat) (h : (l.map f).Nodup) :
    ((randomSelect rand l n).map f).Nodup := by
  unfold randomSelect
  split
  · exact h
  · rw [List.map_take]
    exact List.Sublist.nodup (List.take_sublist _ _)
      (((fisherYates_perm rand n l 0).map f).nodup_iff.mpr h)

/-- Every tier step of the selection loop appends a block that is drawn
from that tier's pool and is duplicate-free under any duplicate-free
projection of the pool. -/
theorem selectStep_shape (rand : Difficulty → List Nat)
    (pools : Difficulty → List Problem) (dist : Difficulty → Nat)
    (acc : List Problem × Nat) (d : Difficulty) :
    ∃ s : List Problem,
      (selectStep rand pools dist acc d).1 = acc.1 ++ s ∧
      (∀ p ∈ s, p ∈ pools d) ∧
      ∀ f : Problem → Nat, ((pools d).map f).Nodup → (s.map f).Nodup := by
  by_cases hlt : (pools d).length < dist d + acc.2
  · refine ⟨pools d, ?_, fun p hp => hp, fun f hf => hf⟩
    simp [selectStep, hlt]
  · refine ⟨randomSelect (rand d) (pools d) (dist d + acc.2), ?_,
      fun p hp => randomSelect_subset _ _ _ p hp,
      fun f hf => randomSelect_map_nodup _ _ _ f hf⟩
    simp [selectStep, hlt]

/-- Claim C2. `calculateDistribution` reproduces the spec's policy table
followed by the floor-enforcement pass: for every positive count and every
tier, the code's distribution equals the distribution computed from the
spec's words (table rows for `≤3`, `4–5`, `6–10`, `>10`, then the
independent per-tier bump of exact zeros to one when `count ≥ 3`). -/
theorem calculateDistribution_eq_spec (count : Nat) (d : Difficulty)
    (h : 1 ≤ count) :
    calculateDistribution count d = planDistributionSpec count d := by
  rcases d <;>
    simp only [calculateDistribution, rawDistribution, planDistributionSpec] <;>
    split_ifs <;> omega

/-- Witness for `calculateDistribution_eq_spec` at `count = 7`, tier
`medium`. -/
theorem calculateDistribution_eq_spec_witness :
    1 ≤ 7 ∧ calculateDistribution 7 .medium = planDistributionSpec 7 .medium :=
  ⟨by decide, calculateDistribution_eq_spec 7 .medium (by decide)⟩

/-- Claim C3, counterexample. The claim "for every positive requestedCount the
three values sum exactly to requestedCount" fails at `count = 3`: the
floor-enforcement pass bumps the hard tier from `0` to `1`, so the sum is
`4`, not `3`. -/
theorem distTotal_three_ne_three :
    ¬ distTotal (calculateDistribution 3) = 3 := by decide

/-- Claim C3, amended. For every positive `count`, `calculateDistribution`
returns three non-negative integers (automatic for `Nat`), and the three
values sum exactly to `count` for every positive `count` other than `3` and
`4`; at `count = 3` and `count = 4` (the only counts where a tier is zero
before the bump while `count ≥ 3`) the sum is `count + 1`. -/
theorem distTotal_calculateDistribution (count : Nat) (h : 1 ≤ count) :
    (count = 3 ∨ count = 4 → distTotal (calculateDistribution count) = count + 1) ∧
    (count ≠ 3 → count ≠ 4 → distTotal (calculateDistribution count) = count) := by
  rcases Nat.lt_or_ge count 11 with hlt | hge
  · interval_cases count <;> simp_all <;> decide
  · constructor
    · omega
    · intro _ _
      simp only [distTotal, calculateDistribution, rawDistribution]
      split_ifs <;> omega

/-- Witness for `distTotal_calculateDistribution` at `count = 20`. -/
theorem distTotal_calculateDistribution_witness :
    1 ≤ 20 ∧ distTotal (calculateDistribution 20) = 20 :=
  ⟨by decide, (distTotal_calculateDistribution 20 (by decide)).2 (by decide) (by decide)⟩

/-- The selection loop splits into one block per tier, each block drawn
from its tier's pool and duplicate-free under any duplicate-free
projection of that pool. -/
theorem selectLoop_shape (rand : Difficulty → List Nat)
    (pools : Difficulty → List Problem) (dist : Difficulty → Nat) :
    ∃ sE sM sH : List Problem,
      (selectLoop rand pools dist).1 = sE ++ sM ++ sH ∧
      (∀ p ∈ sE, p ∈ pools .easy) ∧ (∀ p ∈ sM, p ∈ pools .medium) ∧
      (∀ p ∈ sH, p ∈ pools .hard) ∧
      ∀ f : Problem → Nat,
        (((pools .easy).map f).Nodup → (sE.map f).Nodup) ∧
        (((pools .medium).map f).Nodup → (sM.map f).Nodup) ∧
        (((pools .hard).map f).Nodup → (sH.map f).Nodup) := by
  obtain ⟨s1, h1, hm1, hn1⟩ := selectStep_shape rand pools dist ([], 0) .easy
  obtain ⟨s2, h2, hm2, hn2⟩ := selectStep_shape rand pools dist
    (selectStep rand pools dist ([], 0) .easy) .medium
  obtain ⟨s3, h3, hm3, hn3⟩ := selectStep_shape rand pools dist
    (selectStep rand pools dist (selectStep rand pools dist ([], 0) .easy) .medium) .hard
  refine ⟨s1, s2, s3, ?_, hm1, hm2, hm3, fun f => ⟨hn1 f, hn2 f, hn3 f⟩⟩
  calc (selectLoop rand pools dist).1
      = (selectStep rand pools dist
          (selectStep rand pools dist (selectStep rand pools dist ([], 0) .easy) .medium)
          .hard).1 := rfl
    _ = (selectStep rand pools dist
          (selectStep rand pools dist ([], 0) .easy) .medium).1 ++ s3 := h3
    _ = ((selectStep rand pools dist ([], 0) .easy).1 ++ s2) ++ s3 := by rw [h2]
    _ = (([] ++ s1) ++ s2) ++ s3 := by rw [h1]
    _ = s1 ++ s2 ++ s3 := by simp

/-- Projecting a block's members into a pool's projection. -/
theorem map_mem_of_subset {f : Problem → Nat} {s pool : List Problem}
    (hs : ∀ p ∈ s, p ∈ pool) : ∀ x ∈ s.map f, x ∈ pool.map f := by
  intro x hx
  obtain ⟨p, hp, rfl⟩ := List.mem_map.mp hx
  exact List.mem_map.mpr ⟨p, hs p hp, rfl⟩

/-- Claim C5. With a positive requested count (guaranteed by the HTTP-layer
validation `problem_count >= 1`), `SelectProblemsForContest` returns
`ErrNotEnoughProblems` exactly when the assembled selection is empty; a
non-empty selection smaller than the requested count is returned as a
success (the sorted partial list), not an error. -/
theorem selectProblems_error_iff_empty (rand : Difficulty → List Nat)
    (fetch : Difficulty → Except Nat (List Problem)) (count : Nat)
    (h : 1 ≤ count) :
    (SelectProblemsForContest rand fetch count = .error .notEnoughProblems ↔
      (selectLoop rand (poolsOf fetch) (calculateDistribution count)).1 = []) ∧
    ((selectLoop rand (poolsOf fetch) (calculateDistribution count)).1 ≠ [] →
      SelectProblemsForContest rand fetch count =
        .ok ((selectLoop rand (poolsOf fetch) (calculateDistribution count)).1.mergeSort
          leWeight)) := by
  set sel := (selectLoop rand (poolsOf fetch) (calculateDistribution count)).1 with hselDef
  have hdef : SelectProblemsForContest rand fetch count =
      if sel.length < count ∧ sel.length = 0 then .error .notEnoughProblems
      else .ok (sel.mergeSort leWeight) := rfl
  rw [hdef]
  split_ifs with hcond
  · have hempty : sel = [] := List.length_eq_zero.mp hcond.2
    exact ⟨by simp [hempty], fun hne => absurd hempty hne⟩
  · constructor
    · constructor
      · intro hco
        exact absurd hco (by simp)
      · intro hempty
        exact absurd ⟨by simp [hempty]; omega, by simp [hempty]⟩ hcond
    · intro _
      rfl

/-- Witness for `selectProblems_error_iff_empty`: with all three fetches
succeeding and `count = 1`, the selection is non-empty and returned as a
success. -/
theorem selectProblems_error_iff_empty_witness :
    SelectProblemsForContest noRand richFetch 1 =
      .ok ((selectLoop noRand (poolsOf richFetch) (calculateDistribution 1)).1.mergeSort
        leWeight) :=
  (selectProblems_error_iff_empty noRand richFetch 1 (by decide)).2 (by decide)

/-- Claim C6. If the three fetched pools carry pairwise-disjoint,
individually duplicate-free problem-identifier sets, then every successful
output of `SelectProblemsForContest` contains no identifier twice, every
returned problem belongs to one of the three pools, and a problem absent
from all three pools (e.g. one the user has solved) never appears. -/
theorem selectProblems_nodup (rand : Difficulty → List Nat)
    (fetch : Difficulty → Except Nat (List Problem)) (count : Nat)
    (hN : ∀ d : Difficulty, ((poolsOf fetch d).map Problem.id).Nodup)
    (hD : ∀ d d' : Difficulty, d ≠ d' →
      ∀ x ∈ (poolsOf fetch d).map Problem.id, x ∉ (poolsOf fetch d').map Problem.id)
    (l : List Problem)
    (hok : SelectProblemsForContest rand fetch count = .ok l) :
    (l.map Problem.id).Nodup ∧
    (∀ p ∈ l, p ∈ poolsOf fetch .easy ∨ p ∈ poolsOf fetch .medium ∨
      p ∈ poolsOf fetch .hard) ∧
    (∀ q : Problem, q ∉ poolsOf fetch .easy → q ∉ poolsOf fetch .medium →
      q ∉ poolsOf fetch .hard → q ∉ l) := by
  set sel := (selectLoop rand (poolsOf fetch) (calculateDistribution count)).1 with hselDef
  have hdef : SelectProblemsForContest rand fetch count =
      if sel.length < count ∧ sel.length = 0 then .error .notEnoughProblems
      else .ok (sel.mergeSort leWeight) := rfl
  rw [hdef] at hok
  split_ifs at hok
  have hl : sel.mergeSort leWeight = l := Except.ok.inj hok
  obtain ⟨sE, sM, sH, hsplit, hmE, hmM, hmH, hn⟩ :=
    selectLoop_shape rand (poolsOf fetch) (calculateDistribution count)
  rw [← hselDef] at hsplit
  have hmemsel : ∀ p ∈ sel,
      p ∈ poolsOf fetch .easy ∨ p ∈ poolsOf fetch .medium ∨ p ∈ poolsOf fetch .hard := by
    intro p hp
    rw [hsplit] at hp
    rcases List.mem_append.mp hp with hp' | hp'
    · rcases List.mem_append.mp hp' with hp'' | hp''
      · exact Or.inl (hmE p hp'')
      · exact Or.inr (Or.inl (hmM p hp''))
    · exact Or.inr (Or.inr (hmH p hp'))
  have hnodupSel : (sel.map Problem.id).Nodup := by
    rw [hsplit]
    simp only [List.map_append]
    rw [List.nodup_append, List.nodup_append]
    refine ⟨⟨(hn Problem.id).1 (hN .easy), (hn Problem.id).2.1 (hN .medium), ?_⟩,
      (hn Problem.id).2.2 (hN .hard), ?_⟩
    · intro x hx hx'
      exact hD .easy .medium (by simp) x (map_mem_of_subset hmE x hx)
        (map_mem_of_subset hmM x hx')
    · intro x hx hx'
      have hxH := map_mem_of_subset hmH x hx'
      rcases List.mem_append.mp hx with hx'' | hx''
      · exact hD .hard .easy (by simp) x hxH (map_mem_of_subset hmE x hx'')
      · exact hD .hard .medium (by simp) x hxH (map_mem_of_subset hmM x hx'')
  have hperm : (sel.mergeSort leWeight).Perm sel := List.mergeSort_perm sel leWeight
  have hmeml : ∀ p ∈ l,
      p ∈ poolsOf fetch .easy ∨ p ∈ poolsOf fetch .medium ∨ p ∈ poolsOf fetch .hard := by
    intro p hp
    exact hmemsel p (hperm.mem_iff.mp (hl ▸ hp))
  refine ⟨?_, hmeml, ?_⟩
  · have : ((sel.mergeSort leWeight).map Problem.id).Nodup :=
      ((hperm.map Problem.id).nodup_iff).mpr hnodupSel
    exact hl ▸ this
  · intro q hqE hqM hqH hq
    rcases hmeml q hq with h' | h' | h'
    · exact hqE h'
    · exact hqM h'
    · exact hqH h'

/-- Witness for `selectProblems_nodup`: the concrete successful run on
`richFetch` with `count = 3`. -/
theorem selectProblems_nodup_witness :
    ((((selectLoop noRand (poolsOf richFetch) (calculateDistribution 3)).1.mergeSort
        leWeight).map Problem.id).Nodup) ∧
    (∀ p ∈ (selectLoop noRand (poolsOf richFetch) (calculateDistribution 3)).1.mergeSort
        leWeight, p ∈ poolsOf richFetch .easy ∨ p ∈ poolsOf richFetch .medium ∨
        p ∈ poolsOf richFetch .hard) ∧
    (∀ q : Problem, q ∉ poolsOf richFetch .easy → q ∉ poolsOf richFetch .medium →
      q ∉ poolsOf richFetch .hard →
      q ∉ (selectLoop noRand (poolsOf richFetch) (calculateDistribution 3)).1.mergeSort
        leWeight) :=
  selectProblems_nodup noRand richFetch 3 (by decide) (by decide) _ rfl

/-- Claim C7. Every list returned successfully by `SelectProblemsForContest`
is ordered by non-decreasing difficulty weight from first to last element. -/
theorem selectProblems_sorted (rand : Difficulty → List Nat)
    (fetch : Difficulty → Except Nat (List Problem)) (count : Nat)
    (l : List Problem)
    (hok : SelectProblemsForContest rand fetch count = .ok l) :
    l.Pairwise (fun a b => a.difficulty.weight ≤ b.difficulty.weight) := by
  set sel := (selectLoop rand (poolsOf fetch) (calculateDistribution count)).1 with hselDef
  have hdef : SelectProblemsForContest rand fetch count =
      if sel.length < count ∧ sel.length = 0 then .error .notEnoughProblems
      else .ok (sel.mergeSort leWeight) := rfl
  rw [hdef] at hok
  split_ifs at hok
  have hl : sel.mergeSort leWeight = l := Except.ok.inj hok
  have hsorted := @List.sorted_mergeSort Problem leWeight
    (fun a b c hab hbc => by
      simp only [leWeight, decide_eq_true_eq] at *
      omega)
    (fun a b => by
      simp only [leWeight, Bool.or_eq_true, decide_eq_true_eq]
      omega)
    sel
  rw [hl] at hsorted
  exact hsorted.imp (fun hab => by simpa [leWeight] using hab)

/-- Witness for `selectProblems_sorted`: the concrete successful run on
`richFetch` with `count = 3`. -/
theorem selectProblems_sorted_witness :
    ((selectLoop noRand (poolsOf richFetch) (calculateDistribution 3)).1.mergeSort
      leWeight).Pairwise (fun a b => a.difficulty.weight ≤ b.difficulty.weight) :=
  selectProblems_sorted noRand richFetch 3 _ rfl

/-- A sufficiently supplied tier step: when the pool covers the needed
amount, the step appends exactly `needed` randomly selected problems and
resets the shortfall to `0`. -/
theorem selectStep_of_supply_len (rand : Difficulty → List Nat)
    (pools : Difficulty → List Problem) (dist : Difficulty → Nat)
    (acc : List Problem × Nat) (d : Difficulty)
    (h : dist d + acc.2 ≤ (pools d).length) :
    (selectStep rand pools dist acc d).1.length = acc.1.length + (dist d + acc.2) ∧
    (selectStep rand pools dist acc d).2 = 0 := by
  unfold selectStep
  rw [if_neg (by omega)]
  refine ⟨?_, rfl⟩
  simp only [List.length_append, randomSelect_length]
  omega

/-- When every tier's pool covers its distribution entry, the selection
loop returns exactly the distribution total. -/
theorem selectLoop_length_of_supply (rand : Difficulty → List Nat)
    (pools : Difficulty → List Problem) (dist : Difficulty → Nat)
    (hE : dist .easy ≤ (pools .easy).length)
    (hM : dist .medium ≤ (pools .medium).length)
    (hH : dist .hard ≤ (pools .hard).length) :
    (selectLoop rand pools dist).1.length = distTotal dist := by
  have h1 := selectStep_of_supply_len rand pools dist ([], 0) .easy (by simpa using hE)
  have h2 := selectStep_of_supply_len rand pools dist
    (selectStep rand pools dist ([], 0) .easy) .medium (by rw [h1.2]; simpa using hM)
  have h3 := selectStep_of_supply_len rand pools dist
    (selectStep rand pools dist (selectStep rand pools dist ([], 0) .easy) .medium)
    .hard (by rw [h2.2]; simpa using hH)
  have hstep : (selectLoop rand pools dist).1.length
      = (selectStep rand pools dist
          (selectStep rand pools dist (selectStep rand pools dist ([], 0) .easy) .medium)
          .hard).1.length := rfl
  rw [hstep, h3.1, h2.1, h2.2, h1.1, h1.2]
  simp [distTotal]

/-- The length of every block of problems of one difficulty under a
difficulty filter. -/
theorem filter_length_all (d d' : Difficulty) :
    ∀ l : List Problem, (∀ p ∈ l, p.difficulty = d) →
      (l.filter (fun p => p.difficulty == d')).length =
        if d' = d then l.length else 0 := by
  intro l
  induction l with
  | nil => intro _; simp
  | cons p ps ih =>
    intro h
    have hp : p.difficulty = d := h p (List.mem_cons_self _ _)
    have ihr := ih (fun q hq => h q (List.mem_cons_of_mem _ hq))
    by_cases hdd : d' = d
    · subst hdd
      simp [List.filter_cons, hp, ihr]
    · simp [List.filter_cons, hp, ihr, hdd, Ne.symm hdd]

/-- Claim C1. The selection loop processes tiers Easy, Medium, Hard with a
running shortfall: with pools of sizes `{Easy: 1, Medium: 10, Hard: 10}`
(each pool homogeneous in its difficulty) and distribution
`{easy: 3, medium: 3, hard: 3}`, the Easy step takes the whole pool and
sets the shortfall to `2`, and the assembled list has `9` problems:
`1` Easy, `5` Medium and `3` Hard. -/
theorem shortfall_carry_forward (rand : Difficulty → List Nat)
    (pools : Difficulty → List Problem)
    (hE : (pools .easy).length = 1) (hM : (pools .medium).length = 10)
    (hH : (pools .hard).length = 10)
    (hdE : ∀ p ∈ pools .easy, p.difficulty = .easy)
    (hdM : ∀ p ∈ pools .medium, p.difficulty = .medium)
    (hdH : ∀ p ∈ pools .hard, p.difficulty = .hard) :
    selectStep rand pools (fun _ => 3) ([], 0) .easy = (pools .easy, 2) ∧
    (selectLoop rand pools (fun _ => 3)).1.length = 9 ∧
    ((selectLoop rand pools (fun _ => 3)).1.filter
      (fun p => p.difficulty == Difficulty.easy)).length = 1 ∧
    ((selectLoop rand pools (fun _ => 3)).1.filter
      (fun p => p.difficulty == Difficulty.medium)).length = 5 ∧
    ((selectLoop rand pools (fun _ => 3)).1.filter
      (fun p => p.difficulty == Difficulty.hard)).length = 3 := by
  have e1 : selectStep rand pools (fun _ => 3) ([], 0) .easy = (pools .easy, 2) := by
    unfold selectStep
    rw [if_pos (by simp [hE])]
    simp [hE]
  have e2 : selectStep rand pools (fun _ => 3) (pools .easy, 2) .medium
      = (pools .easy ++ randomSelect (rand .medium) (pools .medium) 5, 0) := by
    unfold selectStep
    rw [if_neg (by simp [hM])]
    simp
  have e3 : selectStep rand pools (fun _ => 3)
      (pools .easy ++ randomSelect (rand .medium) (pools .medium) 5, 0) .hard
      = (pools .easy ++ randomSelect (rand .medium) (pools .medium) 5
          ++ randomSelect (rand .hard) (pools .hard) 3, 0) := by
    unfold selectStep
    rw [if_neg (by simp [hH])]
    simp
  have hloop : (selectLoop rand pools (fun _ => 3)).1
      = pools .easy ++ randomSelect (rand .medium) (pools .medium) 5
          ++ randomSelect (rand .hard) (pools .hard) 3 := by
    have : selectLoop rand pools (fun _ => 3)
        = selectStep rand pools (fun _ => 3)
            (selectStep rand pools (fun _ => 3)
              (selectStep rand pools (fun _ => 3) ([], 0) .easy) .medium) .hard := rfl
    rw [this, e1, e2, e3]
  have hlenM : (randomSelect (rand .medium) (pools .medium) 5).length = 5 := by
    rw [randomSelect_length, hM]
    decide
  have hlenH : (randomSelect (rand .hard) (pools .hard) 3).length = 3 := by
    rw [randomSelect_length, hH]
    decide
  have hdM' : ∀ p ∈ randomSelect (rand .medium) (pools .medium) 5,
      p.difficulty = .medium := fun p hp => hdM p (randomSelect_subset _ _ _ p hp)
  have hdH' : ∀ p ∈ randomSelect (rand .hard) (pools .hard) 3,
      p.difficulty = .hard := fun p hp => hdH p (randomSelect_subset _ _ _ p hp)
  refine ⟨e1, ?_, ?_, ?_, ?_⟩
  · rw [hloop]
    simp [List.length_append, hE, hlenM, hlenH]
  · rw [hloop, List.filter_append, List.filter_append, List.length_append,
      List.length_append, filter_length_all .easy .easy _ hdE,
      filter_length_all .medium .easy _ hdM', filter_length_all .hard .easy _ hdH']
    simp [hE]
  · rw [hloop, List.filter_append, List.filter_append, List.length_append,
      List.length_append, filter_length_all .easy .medium _ hdE,
      filter_length_all .medium .medium _ hdM', filter_length_all .hard .medium _ hdH']
    simp [hlenM]
  · rw [hloop, List.filter_append, List.filter_append, List.length_append,
      List.length_append, filter_length_all .easy .hard _ hdE,
      filter_length_all .medium .hard _ hdM', filter_length_all .hard .hard _ hdH']
    simp [hlenH]

/-- Witness for `shortfall_carry_forward` on the concrete pools
`examplePools`. -/
theorem shortfall_carry_forward_witness :
    selectStep noRand examplePools (fun _ => 3) ([], 0) .easy = (examplePools .easy, 2) ∧
    (selectLoop noRand examplePools (fun _ => 3)).1.length = 9 ∧
    ((selectLoop noRand examplePools (fun _ => 3)).1.filter
      (fun p => p.difficulty == Difficulty.easy)).length = 1 ∧
    ((selectLoop noRand examplePools (fun _ => 3)).1.filter
      (fun p => p.difficulty == Difficulty.medium)).length = 5 ∧
    ((selectLoop noRand examplePools (fun _ => 3)).1.filter
      (fun p => p.difficulty == Difficulty.hard)).length = 3 :=
  shortfall_carry_forward noRand examplePools (by decide) (by decide) (by decide)
    (by decide) (by decide) (by decide)

/-- Claim C8. The floor-enforcement bump makes the distributions for counts
`3` and `4` sum to `count + 1` (`{2,1,1}` and `{2,2,1}`); a successful
result always has exactly the assembled selection's length (the final size
check never trims), and with sufficiently supplied pools the engine
returns `count + 1` problems for counts `3` and `4` — more than requested. -/
theorem selectProblems_overfill (rand : Difficulty → List Nat)
    (fetch : Difficulty → Except Nat (List Problem))
    (hE : 2 ≤ (poolsOf fetch .easy).length)
    (hM : 2 ≤ (poolsOf fetch .medium).length)
    (hH : 1 ≤ (poolsOf fetch .hard).length) :
    (calculateDistribution 3 .easy = 2 ∧ calculateDistribution 3 .medium = 1 ∧
      calculateDistribution 3 .hard = 1) ∧
    (calculateDistribution 4 .easy = 2 ∧ calculateDistribution 4 .medium = 2 ∧
      calculateDistribution 4 .hard = 1) ∧
    (∀ count : Nat, ∀ l : List Problem,
      SelectProblemsForContest rand fetch count = .ok l →
      l.length = (selectLoop rand (poolsOf fetch) (calculateDistribution count)).1.length) ∧
    (∃ l, SelectProblemsForContest rand fetch 3 = .ok l ∧ l.length = 4) ∧
    (∃ l, SelectProblemsForContest rand fetch 4 = .ok l ∧ l.length = 5) := by
  have hnotrim : ∀ count : Nat, ∀ l : List Problem,
      SelectProblemsForContest rand fetch count = .ok l →
      l.length = (selectLoop rand (poolsOf fetch) (calculateDistribution count)).1.length := by
    intro count l hok
    set sel := (selectLoop rand (poolsOf fetch) (calculateDistribution count)).1 with hselDef
    have hdef : SelectProblemsForContest rand fetch count =
        if sel.length < count ∧ sel.length = 0 then .error .notEnoughProblems
        else .ok (sel.mergeSort leWeight) := rfl
    rw [hdef] at hok
    split_ifs at hok
    rw [← Except.ok.inj hok, (List.mergeSort_perm sel leWeight).length_eq]
  have hlen3 : (selectLoop rand (poolsOf fetch) (calculateDistribution 3)).1.length = 4 := by
    rw [selectLoop_length_of_supply rand (poolsOf fetch) (calculateDistribution 3)
      (by simp [calculateDistribution, rawDistribution]; omega)
      (by simp [calculateDistribution, rawDistribution]; omega)
      (by simp [calculateDistribution, rawDistribution]; omega)]
    decide
  have hlen4 : (selectLoop rand (poolsOf fetch) (calculateDistribution 4)).1.length = 5 := by
    rw [selectLoop_length_of_supply rand (poolsOf fetch) (calculateDistribution 4)
      (by simp [calculateDistribution, rawDistribution]; omega)
      (by simp [calculateDistribution, rawDistribution]; omega)
      (by simp [calculateDistribution, rawDistribution]; omega)]
    decide
  refine ⟨by decide, by decide, hnotrim, ?_, ?_⟩
  · refine ⟨((selectLoop rand (poolsOf fetch) (calculateDistribution 3)).1.mergeSort
      leWeight), ?_, ?_⟩
    · have hdef : SelectProblemsForContest rand fetch 3 =
          if (selectLoop rand (poolsOf fetch) (calculateDistribution 3)).1.length < 3 ∧
              (selectLoop rand (poolsOf fetch) (calculateDistribution 3)).1.length = 0 then
            .error .notEnoughProblems
          else .ok ((selectLoop rand (poolsOf fetch) (calculateDistribution 3)).1.mergeSort
            leWeight) := rfl
      rw [hdef, if_neg (by omega)]
    · rw [(List.mergeSort_perm _ leWeight).length_eq, hlen3]
  · refine ⟨((selectLoop rand (poolsOf fetch) (calculateDistribution 4)).1.mergeSort
      leWeight), ?_, ?_⟩
    · have hdef : SelectProblemsForContest rand fetch 4 =
          if (selectLoop rand (poolsOf fetch) (calculateDistribution 4)).1.length < 4 ∧
              (selectLoop rand (poolsOf fetch) (calculateDistribution 4)).1.length = 0 then
            .error .notEnoughProblems
          else .ok ((selectLoop rand (poolsOf fetch) (calculateDistribution 4)).1.mergeSort
            leWeight) := rfl
      rw [hdef, if_neg (by omega)]
    · rw [(List.mergeSort_perm _ leWeight).length_eq, hlen4]

/-- Witness for `selectProblems_overfill` on `richFetch` (three problems
per tier). -/
theorem selectProblems_overfill_witness :
    ∃ l, SelectProblemsForContest noRand richFetch 3 = .ok l ∧ l.length = 4 :=
  (selectProblems_overfill noRand richFetch (by decide) (by decide) (by decide)).2.2.2.1

end ContestMaker
